import Mathlib

/-!
Verification of the pipeline in trend.py: fetch top-viewed Arabic Wikipedia
articles for a date, filter titles by exclusion substrings, probe Al Jazeera
search coverage per topic through a browser session, and emit JSON/CSV files.

Modelling conventions:
* Python strings are sequences of Unicode code points, embedded as `List Nat`
  (abbreviated `Str`); `strCodes` bridges from Lean string literals.
* Decoded JSON values (the result of `response.json()`) are the inductive
  `JVal`; Python dictionaries keep insertion order, hence association lists.
* Python exceptions are explicit: fallible steps return `Except PyErr _`.
  The distinct exception classes the code catches or can raise are the
  constructors of `PyErr`.
* A network-level failure of `requests.get` / `raise_for_status` /
  `response.json` (all `requests.exceptions.RequestException`, including the
  HTTP error statuses and, in current requests, invalid JSON bodies) is
  modelled by the response argument being `none`.
-/

/-- A Python string: its sequence of Unicode code points. -/
abbrev Str : Type := List Nat

/-- Code points of a Lean string literal, to transcribe literals from trend.py. -/
def strCodes (s : String) : Str := s.data.map Char.toNat

/-- A decoded JSON value, as returned by response.json() in Python. -/
inductive JVal : Type where
  | jnull : JVal
  | jbool : Bool → JVal
  | jnum : Int → JVal
  | jstr : Str → JVal
  | jarr : List JVal → JVal
  | jobj : List (Str × JVal) → JVal

/-- The Python exception classes relevant to trend.py's handlers. -/
inductive PyErr : Type where
  | indexError : PyErr
  | keyError : PyErr
  | typeError : PyErr
  | attributeError : PyErr
deriving DecidableEq

/-- Ordered dictionary lookup, as Python dict indexing uses. -/
def lookupStr : List (Str × JVal) → Str → Option JVal
  | [], _ => none
  | (k, v) :: rest, key => if k = key then some v else lookupStr rest key

/-- Python dict.get(key, default): AttributeError when the receiver is not a
dict (lists, strings and numbers have no .get attribute). -/
def pyGet (v : JVal) (key : Str) (dflt : JVal) : Except PyErr JVal :=
  match v with
  | .jobj kvs =>
      match lookupStr kvs key with
      | some w => .ok w
      | none => .ok dflt
  | _ => .error .attributeError

/-- Python v[0]: first element of a list (IndexError when empty), first
character of a string, KeyError on a dict without that key, TypeError on
non-subscriptable values. -/
def pyIndexZero (v : JVal) : Except PyErr JVal :=
  match v with
  | .jarr (x :: _) => .ok x
  | .jarr [] => .error .indexError
  | .jstr (c :: _) => .ok (.jstr [c])
  | .jstr [] => .error .indexError
  | .jobj _ => .error .keyError
  | _ => .error .typeError

/-- Python v[key] with a string key: dict lookup (KeyError when absent),
TypeError on lists, strings and other values. -/
def pySubscript (v : JVal) (key : Str) : Except PyErr JVal :=
  match v with
  | .jobj kvs =>
      match lookupStr kvs key with
      | some w => .ok w
      | none => .error .keyError
  | _ => .error .typeError

/-- Python iteration (for x in v): the elements of a list, the one-character
strings of a string, the keys of a dict; TypeError otherwise. -/
def pyIterList (v : JVal) : Except PyErr (List JVal) :=
  match v with
  | .jarr xs => .ok xs
  | .jstr s => .ok (s.map fun c => .jstr [c])
  | .jobj kvs => .ok (kvs.map fun kv => .jstr kv.1)
  | _ => .error .typeError

/-- Does the candidate string start with the pattern? (Python
str.startswith, and the head test of substring search.) -/
def leadMatch : Str → Str → Bool
  | [], _ => true
  | _ :: _, [] => false
  | a :: as, b :: bs => a == b && leadMatch as bs

/-- Python (pat in s) on strings: pat occurs contiguously in s. The empty
pattern occurs in every string. -/
def strContains : Str → Str → Bool
  | pat, [] => leadMatch pat []
  | pat, s@(_ :: rest) => leadMatch pat s || strContains pat rest

/-- Python (pat in v): substring containment on strings, element membership
on lists (string equality against each element; str == non-str is False),
key membership on dicts, TypeError on numbers and the rest. -/
def pyIn (pat : Str) (v : JVal) : Except PyErr Bool :=
  match v with
  | .jstr s => .ok (strContains pat s)
  | .jarr xs =>
      .ok (xs.any fun x => match x with
        | .jstr t => pat == t
        | _ => false)
  | .jobj kvs => .ok (kvs.any fun kv => kv.1 == pat)
  | _ => .error .typeError

/-- trend.py line 17: the default EXCLUSION_PATTERNS list. -/
def EXCLUSION_PATTERNS : List Str :=
  [strCodes "الصفحة_الرئيسة", strCodes "خاص:بحث"]

/-- trend.py should_exclude_article: loops over the patterns, returning True
as soon as (pattern in article_title) holds, False after the loop. The title
is whatever value item['article'] held, so the membership test itself can
raise TypeError on a non-string, non-container title. -/
def should_exclude_article (title : JVal) : List Str → Except PyErr Bool
  | [] => .ok false
  | p :: ps =>
      match pyIn p title with
      | .error e => .error e
      | .ok true => .ok true
      | .ok false => should_exclude_article title ps

/-- Pure reading of the exclusion test on string titles: some pattern is a
contiguous substring of the title. -/
def shouldExcludeStr (title : Str) (pats : List Str) : Bool :=
  pats.any fun p => strContains p title

/-- A record built by get_top_wikipedia_arabic_topics: the dict
{rank: item['rank'], article: item['article'].replace('_',' '), views:
item['views']}. Python checks nothing about rank and views, so they stay
arbitrary JSON values; article went through .replace so it is a string. -/
structure FetchRec : Type where
  rank : JVal
  article : Str
  views : JVal

/-- Python str.replace('_', ' '): every underscore becomes a space. -/
def replaceUnderscores (s : Str) : Str :=
  s.map fun c => if c = 95 then 32 else c

/-- The list-comprehension filter of trend.py lines 75-78: keep the items for
which should_exclude_article(item['article'], patterns) is false; each step
subscripts 'article' (KeyError/TypeError possible) and runs the membership
test. -/
def filterArticles (pats : List Str) : List JVal → Except PyErr (List JVal)
  | [] => .ok []
  | it :: rest =>
      match pySubscript it (strCodes "article") with
      | .error e => .error e
      | .ok t =>
          match should_exclude_article t pats with
          | .error e => .error e
          | .ok b =>
              match filterArticles pats rest with
              | .error e => .error e
              | .ok tail => .ok (if b then tail else it :: tail)

/-- The record-building loop of trend.py lines 80-86, over articles[:top_n]:
evaluates item['rank'], then item['article'].replace('_', ' ') (AttributeError
when the title is not a string), then item['views']. -/
def buildTop : List JVal → Except PyErr (List FetchRec)
  | [] => .ok []
  | it :: rest =>
      match pySubscript it (strCodes "rank") with
      | .error e => .error e
      | .ok r =>
          match pySubscript it (strCodes "article") with
          | .error e => .error e
          | .ok (.jstr s) =>
              match pySubscript it (strCodes "views") with
              | .error e => .error e
              | .ok v =>
                  match buildTop rest with
                  | .error e => .error e
                  | .ok tail =>
                      .ok ({ rank := r, article := replaceUnderscores s,
                             views := v } :: tail)
          | .ok _ => .error .attributeError

/-- The try-block body of get_top_wikipedia_arabic_topics (lines 72-89), from
the decoded JSON value onward:
data.get('items', [])[0].get('articles', []) is filtered, truncated to top_n
and mapped to records. -/
def fetchBody (data : JVal) (top_n : Nat) (pats : List Str) :
    Except PyErr (List FetchRec) :=
  match pyGet data (strCodes "items") (.jarr []) with
  | .error e => .error e
  | .ok items =>
      match pyIndexZero items with
      | .error e => .error e
      | .ok first =>
          match pyGet first (strCodes "articles") (.jarr []) with
          | .error e => .error e
          | .ok articlesVal =>
              match pyIterList articlesVal with
              | .error e => .error e
              | .ok arts =>
                  match filterArticles pats arts with
                  | .error e => .error e
                  | .ok filtered => buildTop (filtered.take top_n)

/-- trend.py get_top_wikipedia_arabic_topics: a `none` response stands for a
requests.exceptions.RequestException (network failure, HTTP error status,
invalid JSON body), which the first handler turns into []. IndexError and
KeyError from the body are turned into [] by the second handler; any other
exception (TypeError, AttributeError) propagates to the caller. -/
def get_top_wikipedia_arabic_topics (resp : Option JVal) (top_n : Nat)
    (pats : List Str) : Except PyErr (List FetchRec) :=
  match resp with
  | none => .ok []
  | some data =>
      match fetchBody data top_n pats with
      | .ok recs => .ok recs
      | .error .indexError => .ok []
      | .error .keyError => .ok []
      | .error e => .error e

/-- An abstract article of the API response: its rank, raw title and views. -/
structure Article : Type where
  rank : Int
  title : Str
  views : Int
deriving DecidableEq

/-- The JSON object the API uses for one ranked article. -/
def mkItem (a : Article) : JVal :=
  .jobj [(strCodes "rank", .jnum a.rank),
         (strCodes "article", .jstr a.title),
         (strCodes "views", .jnum a.views)]

/-- A well-formed API response: {items: [{articles: [...]}]} around the
given ranked articles. -/
def mkResp (arts : List Article) : JVal :=
  .jobj [(strCodes "items",
          .jarr [.jobj [(strCodes "articles", .jarr (arts.map mkItem))]])]

/-- The record the fetcher builds from a well-formed article. -/
def mkRec (a : Article) : FetchRec :=
  { rank := .jnum a.rank, article := replaceUnderscores a.title,
    views := .jnum a.views }

/-- What the fetcher computes on a well-formed response, stated directly:
drop the articles whose raw title matches an exclusion pattern, keep the
first top_n of the remainder in order, map each to its record. -/
def fetchSpec (arts : List Article) (top_n : Nat) (pats : List Str) :
    List FetchRec :=
  ((arts.filter fun a => ¬ shouldExcludeStr a.title pats).take top_n).map mkRec

/-! ### Substring matching: characterization of the Python `in` test -/

theorem leadMatch_iff (pat s : Str) :
    leadMatch pat s = true ↔ ∃ post, s = pat ++ post := by
  induction pat generalizing s with
  | nil => simp [leadMatch]
  | cons a as ih =>
      cases s with
      | nil => simp [leadMatch]
      | cons b bs =>
          simp only [leadMatch, Bool.and_eq_true, beq_iff_eq, ih, List.cons_append]
          constructor
          · rintro ⟨h1, post, h2⟩
            exact ⟨post, by rw [h1, h2]⟩
          · rintro ⟨post, h⟩
            injection h with h1 h2
            exact ⟨h1.symm, post, h2⟩

theorem strContains_iff (pat s : Str) :
    strContains pat s = true ↔ ∃ pre post, s = pre ++ pat ++ post := by
  induction s with
  | nil =>
      rw [show strContains pat [] = leadMatch pat [] from rfl, leadMatch_iff]
      constructor
      · rintro ⟨post, h⟩
        exact ⟨[], post, by simpa using h⟩
      · rintro ⟨pre, post, h⟩
        have h2 := h.symm
        rw [List.append_assoc] at h2
        rcases List.append_eq_nil.mp h2 with ⟨hpre, hrest⟩
        rcases List.append_eq_nil.mp hrest with ⟨hpat, hpost⟩
        exact ⟨[], by simp [hpat]⟩
  | cons c rest ih =>
      rw [show strContains pat (c :: rest) =
            (leadMatch pat (c :: rest) || strContains pat rest) from rfl]
      simp only [Bool.or_eq_true, leadMatch_iff, ih]
      constructor
      · rintro (⟨post, h⟩ | ⟨pre, post, h⟩)
        · exact ⟨[], post, by simpa using h⟩
        · exact ⟨c :: pre, post, by simp [h]⟩
      · rintro ⟨pre, post, h⟩
        cases pre with
        | nil => exact Or.inl ⟨post, by simpa using h⟩
        | cons d pre2 =>
            simp only [List.cons_append] at h
            injection h with h1 h2
            exact Or.inr ⟨pre2, post, h2⟩

/-! ### The fetcher on well-formed responses -/

theorem should_exclude_article_jstr (t : Str) (pats : List Str) :
    should_exclude_article (.jstr t) pats = .ok (shouldExcludeStr t pats) := by
  induction pats with
  | nil => rfl
  | cons p ps ih =>
      cases hb : strContains p t with
      | true => simp [should_exclude_article, pyIn, hb, shouldExcludeStr]
      | false => simp [should_exclude_article, pyIn, hb, ih, shouldExcludeStr]

theorem filterArticles_cons_mkItem (pats : List Str) (a : Article)
    (rest : List JVal) :
    filterArticles pats (mkItem a :: rest) =
      (match should_exclude_article (.jstr a.title) pats with
       | Except.error e => Except.error e
       | Except.ok b =>
           match filterArticles pats rest with
           | Except.error e => Except.error e
           | Except.ok tail => Except.ok (if b then tail else mkItem a :: tail)) :=
  rfl

theorem filterArticles_mkItem (pats : List Str) (arts : List Article) :
    filterArticles pats (arts.map mkItem) =
      .ok ((arts.filter fun a => ¬ shouldExcludeStr a.title pats).map mkItem) := by
  induction arts with
  | nil => rfl
  | cons a rest ih =>
      rw [List.map_cons, filterArticles_cons_mkItem, should_exclude_article_jstr, ih]
      cases hb : shouldExcludeStr a.title pats with
      | true => simp [List.filter_cons, hb]
      | false => simp [List.filter_cons, hb]

theorem buildTop_cons_mkItem (a : Article) (rest : List JVal) :
    buildTop (mkItem a :: rest) =
      (match buildTop rest with
       | Except.error e => Except.error e
       | Except.ok tail => Except.ok (mkRec a :: tail)) :=
  rfl

theorem buildTop_mkItem (arts : List Article) :
    buildTop (arts.map mkItem) = .ok (arts.map mkRec) := by
  induction arts with
  | nil => rfl
  | cons a rest ih =>
      rw [List.map_cons, buildTop_cons_mkItem, ih, List.map_cons]

theorem get_top_some_eq (d : JVal) (n : Nat) (pats : List Str) :
    get_top_wikipedia_arabic_topics (some d) n pats =
      (match fetchBody d n pats with
       | Except.ok recs => Except.ok recs
       | Except.error PyErr.indexError => Except.ok []
       | Except.error PyErr.keyError => Except.ok []
       | Except.error e => Except.error e) :=
  rfl

theorem fetchBody_mkResp (arts : List Article) (n : Nat) (pats : List Str) :
    fetchBody (mkResp arts) n pats = .ok (fetchSpec arts n pats) := by
  have h0 : fetchBody (mkResp arts) n pats =
      (match filterArticles pats (arts.map mkItem) with
       | Except.error e => Except.error e
       | Except.ok filtered => buildTop (filtered.take n)) := rfl
  rw [h0, filterArticles_mkItem]
  have h1 : ((arts.filter fun a => ¬ shouldExcludeStr a.title pats).map mkItem).take n
      = ((arts.filter fun a => ¬ shouldExcludeStr a.title pats).take n).map mkItem := by
    rw [List.map_take]
  show buildTop (((arts.filter fun a => ¬ shouldExcludeStr a.title pats).map mkItem).take n)
      = .ok (fetchSpec arts n pats)
  rw [h1, buildTop_mkItem]
  rfl

theorem get_top_mkResp (arts : List Article) (n : Nat) (pats : List Str) :
    get_top_wikipedia_arabic_topics (some (mkResp arts)) n pats =
      .ok (fetchSpec arts n pats) := by
  rw [get_top_some_eq, fetchBody_mkResp]

/-! ### Coverage probe (search_aljazeera_with_selenium) and the main run

The dynamic probe drives a browser; what the environment can do during one
probe is abstracted as a `Behavior`: the "no results" marker
(.search-results__no-results) appears within the 10-second wait, or it never
appears so the WebDriverWait raises TimeoutException, or the browser raises a
WebDriverException (driver.get or the waits/queries failing). -/

inductive Behavior : Type where
  | markerAppears : Behavior
  | noMarker : Behavior
  | browserError : Behavior
deriving DecidableEq

/-- trend.py search_aljazeera_with_selenium (lines 99-143): the wait only
targets the no-results marker, so its appearance yields False (not covered);
TimeoutException (marker absent for 10s) is caught and yields True (covered);
WebDriverException is caught and yields False. The function returns a Bool on
every behavior: no exception reaches the caller. -/
def search_aljazeera_with_selenium : Behavior → Bool
  | .markerAppears => false
  | .noMarker => true
  | .browserError => false

/-- The Arabic yes/no string main stores under aljazeera_coverage. -/
def coverageLabel (found : Bool) : Str :=
  if found then strCodes "نعم" else strCodes "لا"

/-- A topic record after the probe loop added its coverage verdict. -/
structure CovRec : Type where
  rank : JVal
  article : Str
  views : JVal
  coverage : Str

/-- Observable actions of one run, in order: starting the browser session,
probing one topic title, quitting the session, writing each output file. -/
inductive Event : Type where
  | browserStart : Event
  | probe : Str → Event
  | browserQuit : Event
  | writeJsonFile : Event
  | writeCsvFile : Event
deriving DecidableEq

/-- The probe loop of main (lines 227-229): one search per topic in list
order, each topic gaining aljazeera_coverage from the probe verdict. Returns
the probe events and the enriched records. -/
def probeStage (beh : Str → Behavior) : List FetchRec → List Event × List CovRec
  | [] => ([], [])
  | t :: rest =>
      let found := search_aljazeera_with_selenium (beh t.article)
      let tail := probeStage beh rest
      (Event.probe t.article :: tail.1,
       { rank := t.rank, article := t.article, views := t.views,
         coverage := coverageLabel found } :: tail.2)

/-- trend.py main (lines 188-243), as the list of events it performs.
Arguments: the fetch response, requested count and exclusion patterns (the
resolution of defaults, file patterns and --exclude flags happens before the
fetch and is modelled by load_exclusions_from_file below), whether
webdriver.Firefox succeeds, and the browser behavior per probed title.
An empty fetch result returns before any browser or file activity; a failed
browser start returns after the fetch; otherwise the session starts once,
every topic is probed, the session quits, and both files are written. An
uncaught exception of the fetch propagates. -/
def mainRun (resp : Option JVal) (top_n : Nat) (pats : List Str)
    (driverOk : Bool) (beh : Str → Behavior) : Except PyErr (List Event) :=
  match get_top_wikipedia_arabic_topics resp top_n pats with
  | .error e => .error e
  | .ok topics =>
      match topics with
      | [] => .ok []
      | _ :: _ =>
          if driverOk then
            .ok (Event.browserStart :: (probeStage beh topics).1 ++
                 Event.browserQuit :: [Event.writeJsonFile, Event.writeCsvFile])
          else .ok []

/-! ### Exclusion file loading -/

/-- The ASCII whitespace Python str.strip removes (space, tab, newline,
carriage return, vertical tab, form feed); str.strip also removes other
Unicode whitespace, which exclusion files do not contain. -/
def isPySpace (c : Nat) : Bool :=
  c = 32 || c = 9 || c = 10 || c = 13 || c = 11 || c = 12

/-- Python line.strip(): drop whitespace from both ends. -/
def pyStrip (s : Str) : Str :=
  ((s.dropWhile isPySpace).reverse.dropWhile isPySpace).reverse

/-- Python line.startswith(\x27#\x27) on the raw, unstripped line. -/
def startsWithHash : Str → Bool
  | 35 :: _ => true
  | _ => false

/-- trend.py load_exclusions_from_file (lines 168-185): `none` stands for
FileNotFoundError on open (the path names no existing file), answered with
the default patterns; otherwise the file's lines are kept stripped, a line
contributing only when its stripped form is truthy (non-empty) and the raw
line does not start with #. -/
def load_exclusions_from_file (file : Option (List Str)) : List Str :=
  match file with
  | none => EXCLUSION_PATTERNS
  | some lines =>
      (lines.filter fun l => !(pyStrip l).isEmpty && !startsWithHash l).map pyStrip

/-! ### Claim theorems: fetcher, filter, probe, run structure, loader -/

/-- C1: on a response whose items array's first element carries an articles
list, the fetcher first drops every article whose raw title matches an
exclusion pattern and then returns the first N remaining items in their
original order, mapped to records; concretely, 3 articles of which exactly 1
matches a pattern, with N = 2, yield exactly the 2 records of the
non-excluded titles in original rank order. -/
theorem c1_filter_then_truncate :
    (∀ (arts : List Article) (n : Nat) (pats : List Str),
        get_top_wikipedia_arabic_topics (some (mkResp arts)) n pats =
          .ok (((arts.filter fun a => ¬ shouldExcludeStr a.title pats).take n).map
                mkRec)) ∧
    get_top_wikipedia_arabic_topics
        (some (mkResp [⟨1, [97], 30⟩, ⟨2, [120, 121], 20⟩, ⟨3, [98], 10⟩]))
        2 [[120]] =
      .ok [{ rank := .jnum 1, article := [97], views := .jnum 30 },
           { rank := .jnum 3, article := [98], views := .jnum 10 }] := by
  constructor
  · intro arts n pats
    exact get_top_mkResp arts n pats
  · rfl

/-- C4 counterexample: with a response of a single fetched article and a
requested count of 2, the fetch succeeds with 1 record, yet the requested
count exceeds the fetched count — the claimed inequality requested ≤ fetched
fails. -/
theorem c4_counterexample :
    get_top_wikipedia_arabic_topics (some (mkResp [⟨1, [97], 5⟩])) 2 [] =
      .ok [{ rank := .jnum 1, article := [97], views := .jnum 5 }] ∧
    ¬ (2 ≤ ([⟨1, [97], 5⟩] : List Article).length) :=
  ⟨rfl, by decide⟩

/-- C4 amended: the returned topic count is at most the requested count and
at most the fetched count; the requested count itself need not be bounded by
the fetched count. -/
theorem c4_count_bounds (arts : List Article) (n : Nat) (pats : List Str) :
    ∃ recs, get_top_wikipedia_arabic_topics (some (mkResp arts)) n pats = .ok recs ∧
      recs.length ≤ n ∧ recs.length ≤ arts.length := by
  refine ⟨fetchSpec arts n pats, get_top_mkResp arts n pats, ?_, ?_⟩
  · simp [fetchSpec]
  · simp only [fetchSpec, List.length_map, List.length_take]
    exact le_trans (Nat.min_le_right _ _) (List.length_filter_le _ _)

/-- C3 counterexample: with the active exclusion pattern "a b" (codes
[97, 32, 98]) and an article whose raw title is "a_b" (codes [97, 95, 98]),
the item passes the filter — its raw underscore-form title does not contain
the pattern — yet the emitted record's article title "a b" does contain the
active exclusion substring. -/
theorem c3_counterexample :
    get_top_wikipedia_arabic_topics (some (mkResp [⟨1, [97, 95, 98], 5⟩])) 1
        [[97, 32, 98]] =
      .ok [{ rank := .jnum 1, article := [97, 32, 98], views := .jnum 5 }] ∧
    shouldExcludeStr [97, 95, 98] [[97, 32, 98]] = false ∧
    strContains [97, 32, 98] [97, 32, 98] = true :=
  ⟨rfl, rfl, rfl⟩

/-- C3 amended: an item is excluded exactly when its raw underscore-form
title contains some active exclusion substring under plain substring matching
(not regex), and every emitted record stems from a raw title containing no
active pattern, its article field being that raw title with underscores
replaced by spaces. The emitted space-form title itself can still contain a
pattern when the pattern contains a space (see the counterexample). -/
theorem c3_raw_exclusion (arts : List Article) (n : Nat) (pats : List Str)
    (recs : List FetchRec)
    (hr : get_top_wikipedia_arabic_topics (some (mkResp arts)) n pats = .ok recs) :
    (∀ t, should_exclude_article (.jstr t) pats = .ok (shouldExcludeStr t pats)) ∧
    (∀ t, shouldExcludeStr t pats = true ↔
        ∃ p ∈ pats, ∃ pre post, t = pre ++ p ++ post) ∧
    (∀ r ∈ recs, ∃ raw, r.article = replaceUnderscores raw ∧
        ∀ p ∈ pats, strContains p raw = false) := by
  refine ⟨fun t => should_exclude_article_jstr t pats, ?_, ?_⟩
  · intro t
    simp [shouldExcludeStr, List.any_eq_true, strContains_iff]
  · rw [get_top_mkResp] at hr
    injection hr with hr
    intro r hrm
    rw [← hr] at hrm
    simp only [fetchSpec, List.mem_map] at hrm
    obtain ⟨a, ha, hra⟩ := hrm
    have ha2 : a ∈ arts.filter fun a => ¬ shouldExcludeStr a.title pats :=
      List.mem_of_mem_take ha
    rw [List.mem_filter] at ha2
    refine ⟨a.title, by rw [← hra]; rfl, ?_⟩
    intro p hp
    have hfalse : shouldExcludeStr a.title pats = false := by
      simpa using ha2.2
    rw [shouldExcludeStr, List.any_eq_false] at hfalse
    simpa using hfalse p hp

/-- Witness for the amended C3 at a concrete run. -/
theorem c3_raw_exclusion_witness :
    (∀ t, should_exclude_article (.jstr t) [[120]] = .ok (shouldExcludeStr t [[120]])) ∧
    (∀ t, shouldExcludeStr t [[120]] = true ↔
        ∃ p ∈ [[120]], ∃ pre post, t = pre ++ p ++ post) ∧
    (∀ r ∈ [({ rank := .jnum 1, article := [97], views := .jnum 5 } : FetchRec)],
        ∃ raw, r.article = replaceUnderscores raw ∧
          ∀ p ∈ [[120]], strContains p raw = false) :=
  c3_raw_exclusion [⟨1, [97], 5⟩] 1 [[120]]
    [{ rank := .jnum 1, article := [97], views := .jnum 5 }] rfl

/-- C5 counterexample: a syntactically valid but unexpectedly shaped API
response — a JSON array instead of the expected object — makes the fetch
raise AttributeError (data.get on a list) instead of returning the empty
list: not every unexpected shape is handled softly. -/
theorem c5_counterexample :
    get_top_wikipedia_arabic_topics (some (.jarr [])) 3 EXCLUSION_PATTERNS =
      .error .attributeError :=
  rfl

/-- C5 amended: the fetch returns the empty list and raises nothing on every
network error (RequestException), and on exactly the unexpected shapes that
surface as IndexError or KeyError (missing or empty items array, missing
dict keys); shapes raising TypeError or AttributeError propagate to the
caller. -/
theorem c5_soft_fail :
    (∀ (n : Nat) (pats : List Str),
        get_top_wikipedia_arabic_topics none n pats = .ok []) ∧
    (∀ (d : JVal) (n : Nat) (pats : List Str),
        fetchBody d n pats = .error .indexError ∨
          fetchBody d n pats = .error .keyError →
        get_top_wikipedia_arabic_topics (some d) n pats = .ok []) := by
  constructor
  · intro n pats
    rfl
  · intro d n pats h
    rw [get_top_some_eq]
    rcases h with h | h <;> rw [h]

/-- Witness for the amended C5: a response without usable items ({}) gives
IndexError inside the body, answered with the empty list. -/
theorem c5_soft_fail_witness :
    get_top_wikipedia_arabic_topics (some (.jobj [])) 3 [] = .ok [] :=
  c5_soft_fail.2 (.jobj []) 3 [] (Or.inl rfl)

/-- The probe loop visits exactly the topics, in order, independently of the
behaviors encountered. -/
theorem probeStage_fst (beh : Str → Behavior) (topics : List FetchRec) :
    (probeStage beh topics).1 = topics.map fun t => Event.probe t.article := by
  induction topics with
  | nil => rfl
  | cons t rest ih => simp [probeStage, ih]

/-- C2: the dynamic probe classifies a topic as not covered when the
"no results" marker appears within the timeout, as covered when the marker
never appears (the TimeoutException handler), and as not covered on a
browser error — and a browser error never aborts the run: the probe loop
still visits every topic whatever the behaviors are. -/
theorem c2_probe_classification :
    search_aljazeera_with_selenium .markerAppears = false ∧
    search_aljazeera_with_selenium .noMarker = true ∧
    search_aljazeera_with_selenium .browserError = false ∧
    (∀ (beh : Str → Behavior) (topics : List FetchRec),
        (probeStage beh topics).1 = topics.map fun t => Event.probe t.article) := by
  exact ⟨rfl, rfl, rfl, probeStage_fst⟩

/-- C7: whenever the fetch step yields the empty topic list, main returns
before any probing — the run performs no event at all (no browser start, no
file write) and raises nothing. -/
theorem c7_empty_fetch_halts (resp : Option JVal) (n : Nat) (pats : List Str)
    (driverOk : Bool) (beh : Str → Behavior)
    (h : get_top_wikipedia_arabic_topics resp n pats = .ok []) :
    mainRun resp n pats driverOk beh = .ok [] := by
  simp [mainRun, h]

/-- Witness for C7: a network failure yields an empty fetch and an eventless
run. -/
theorem c7_empty_fetch_halts_witness :
    mainRun none 5 EXCLUSION_PATTERNS true (fun _ => Behavior.noMarker) = .ok [] :=
  c7_empty_fetch_halts none 5 EXCLUSION_PATTERNS true (fun _ => Behavior.noMarker) rfl

/-- C8: in every run that reaches the probing stage (nonempty topics, browser
started), the event list is exactly one browser start, then one probe per
topic, then one browser quit, then the file writes: the single session is
created once before the loop, shared by all probes, and closed exactly once
after the loop, whatever each probe's behavior (success, timeout or browser
error). -/
theorem c8_single_browser_session (resp : Option JVal) (n : Nat)
    (pats : List Str) (beh : Str → Behavior) (topics : List FetchRec)
    (h : get_top_wikipedia_arabic_topics resp n pats = .ok topics)
    (hne : topics ≠ []) :
    ∃ evs, mainRun resp n pats true beh = .ok evs ∧
      evs = Event.browserStart :: (topics.map fun t => Event.probe t.article) ++
            Event.browserQuit :: [Event.writeJsonFile, Event.writeCsvFile] ∧
      evs.count Event.browserStart = 1 ∧
      evs.count Event.browserQuit = 1 := by
  have hprobe := probeStage_fst beh topics
  refine ⟨Event.browserStart :: (topics.map fun t => Event.probe t.article) ++
          Event.browserQuit :: [Event.writeJsonFile, Event.writeCsvFile], ?_, rfl, ?_, ?_⟩
  · cases topics with
    | nil => exact absurd rfl hne
    | cons t rest =>
        simp only [mainRun, h, if_true]
        rw [hprobe]
  · have h0 : (topics.map fun t => Event.probe t.article).count Event.browserStart = 0 := by
      rw [List.count_eq_zero]
      simp
    simp [List.count_cons, List.count_append, h0]
  · have h0 : (topics.map fun t => Event.probe t.article).count Event.browserQuit = 0 := by
      rw [List.count_eq_zero]
      simp
    simp [List.count_cons, List.count_append, h0]

/-- Witness for C8 at a concrete run of one topic probed with a browser
error. -/
theorem c8_single_browser_session_witness :
    ∃ evs, mainRun (some (mkResp [⟨1, [97], 5⟩])) 1 [] true
        (fun _ => Behavior.browserError) = .ok evs ∧
      evs = Event.browserStart ::
            (([({ rank := .jnum 1, article := [97], views := .jnum 5 } : FetchRec)]).map
              fun t => Event.probe t.article) ++
            Event.browserQuit :: [Event.writeJsonFile, Event.writeCsvFile] ∧
      evs.count Event.browserStart = 1 ∧
      evs.count Event.browserQuit = 1 :=
  c8_single_browser_session (some (mkResp [⟨1, [97], 5⟩])) 1 []
    (fun _ => Behavior.browserError)
    [{ rank := .jnum 1, article := [97], views := .jnum 5 }] rfl
    (List.cons_ne_nil _ _)

/-- C10: a path naming no existing file loads the default exclusion set
rather than raising, and from an existing file every loaded pattern is the
stripped form of some line that does not start with # — in particular blank
lines contribute nothing and no loaded pattern is the empty string. -/
theorem c10_exclusion_loading :
    load_exclusions_from_file none = EXCLUSION_PATTERNS ∧
    (∀ (lines : List Str) (p : Str),
        p ∈ load_exclusions_from_file (some lines) →
        p ≠ [] ∧ ∃ l ∈ lines, startsWithHash l = false ∧ p = pyStrip l) := by
  constructor
  · rfl
  · intro lines p hp
    simp only [load_exclusions_from_file, List.mem_map, List.mem_filter,
      Bool.and_eq_true, Bool.not_eq_true'] at hp
    obtain ⟨l, ⟨hl, hempty, hhash⟩, hpl⟩ := hp
    constructor
    · rw [← hpl]
      intro hnil
      rw [hnil] at hempty
      simp at hempty
    · exact ⟨l, hl, hhash, hpl.symm⟩

/-- Witness for C10: a file of a comment line, a blank line and one pattern
line loads exactly the stripped pattern. -/
theorem c10_exclusion_loading_witness :
    ([98] : Str) ≠ [] ∧ ∃ l ∈ [[35, 97], [32, 9], [98, 32]],
      startsWithHash l = false ∧ [98] = pyStrip l :=
  c10_exclusion_loading.2 [[35, 97], [32, 9], [98, 32]] [98] (by decide)

/-! ### Result emitter: JSON and CSV writers

The records main hands to save_to_json / export_to_csv are the topic dicts
with keys rank, article, views, aljazeera_coverage in that insertion order,
holding two ints and two strings (the TopicRecord shape of the data model).
`save_to_json` runs json.dump(data, f, ensure_ascii=False, indent=4);
`export_to_csv` runs csv.DictWriter with the first record's keys. A writer
returning `none` models "no file is created"; `some content` models a file
written with that text. -/

structure TopicRecord : Type where
  rank : Int
  article : Str
  views : Int
  coverage : Str
deriving DecidableEq

/-- Decimal digits of a natural with explicit recursion fuel (any fuel
above the number itself is enough, making the definition executable). -/
def natDigitsAux : Nat → Nat → Str
  | 0, _ => []
  | fuel + 1, n =>
      if n < 10 then [48 + n] else natDigitsAux fuel (n / 10) ++ [48 + n % 10]

/-- Decimal digits of a natural number (what Python repr emits for ints). -/
def natDigits (n : Nat) : Str := natDigitsAux (n + 1) n

/-- json.dump's rendering of a Python int: optional minus sign, digits. -/
def renderInt (i : Int) : Str :=
  if i < 0 then 45 :: natDigits i.natAbs else natDigits i.toNat

/-- Lowercase hex digit, as Python's \x5cu%04x escape formats use. -/
def hexDigitCode (d : Nat) : Nat :=
  if d < 10 then 48 + d else 87 + d

/-- json.dump's escaping of one character with ensure_ascii=False: only the
quote, the backslash and control characters are escaped (the short escapes
\x5cb \x5ct \x5cn \x5cf \x5cr and \x5cu00xx for the rest); every other
character, non-ASCII included, is written verbatim. -/
def escapeCode (c : Nat) : Str :=
  if c = 34 then [92, 34]
  else if c = 92 then [92, 92]
  else if c = 8 then [92, 98]
  else if c = 9 then [92, 116]
  else if c = 10 then [92, 110]
  else if c = 12 then [92, 102]
  else if c = 13 then [92, 114]
  else if c < 32 then [92, 117, 48, 48, hexDigitCode (c / 16), hexDigitCode (c % 16)]
  else [c]

/-- Escape a whole string for a JSON string literal. -/
def escStr : Str → Str
  | [] => []
  | c :: rest => escapeCode c ++ escStr rest

/-- A JSON string literal: quote, escaped content, quote. -/
def renderStrLit (s : Str) : Str := 34 :: (escStr s ++ [34])

/-- A rendered object key with its colon-space separator: "key": -/
def keyLit (k : Str) : Str := 34 :: (k ++ [34, 58, 32])

/-- json.dump(…, indent=4) rendering of one topic dict: each member on its
own line at indent 8, the closing brace at indent 4 (the object sits inside
the top-level array). -/
def renderObj (r : TopicRecord) : Str :=
  [123, 10, 32, 32, 32, 32, 32, 32, 32, 32] ++
  (keyLit (strCodes "rank") ++ (renderInt r.rank ++
  ([44, 10, 32, 32, 32, 32, 32, 32, 32, 32] ++
  (keyLit (strCodes "article") ++ (renderStrLit r.article ++
  ([44, 10, 32, 32, 32, 32, 32, 32, 32, 32] ++
  (keyLit (strCodes "views") ++ (renderInt r.views ++
  ([44, 10, 32, 32, 32, 32, 32, 32, 32, 32] ++
  (keyLit (strCodes "aljazeera_coverage") ++ (renderStrLit r.coverage ++
  [10, 32, 32, 32, 32, 125])))))))))))

/-- The array elements joined by ",\n    " (json.dump's item separator at
indent 4). -/
def sepRecs : List TopicRecord → Str
  | [] => []
  | [r] => renderObj r
  | r :: rest => renderObj r ++ ([44, 10, 32, 32, 32, 32] ++ sepRecs rest)

/-- json.dump(data, f, ensure_ascii=False, indent=4) for the record list:
[] for the empty list, otherwise the bracketed, indented array. -/
def renderTopJson (rs : List TopicRecord) : Str :=
  match rs with
  | [] => [91, 93]
  | _ :: _ => [91, 10, 32, 32, 32, 32] ++ (sepRecs rs ++ [10, 93])

/-- trend.py save_to_json (lines 146-151): opens the file and dumps the
data unconditionally — even an empty list produces a file containing []. -/
def save_to_json (rs : List TopicRecord) : Option Str :=
  some (renderTopJson rs)

/-- Double the quotes inside a CSV field body. -/
def dupQuotes : Str → Str
  | [] => []
  | c :: rest => (if c = 34 then [34, 34] else [c]) ++ dupQuotes rest

/-- csv writer field rendering: quoted with doubled quotes when the field
contains a comma, quote or line break, verbatim otherwise. -/
def csvField (s : Str) : Str :=
  if s.any fun c => c = 44 || c = 34 || c = 13 || c = 10
  then 34 :: (dupQuotes s ++ [34]) else s

/-- One CSV data row for a record, with the \x0d\x0a terminator csv uses. -/
def csvRow (r : TopicRecord) : Str :=
  renderInt r.rank ++ [44] ++ csvField r.article ++ [44] ++
  renderInt r.views ++ [44] ++ csvField r.coverage ++ [13, 10]

/-- Concatenation of rendered rows. -/
def catRows : List TopicRecord → Str
  | [] => []
  | r :: rest => csvRow r ++ catRows rest

/-- trend.py export_to_csv (lines 154-165): returns immediately — no file —
when the list is empty; otherwise writes the header row taken from the first
record's keys and one row per record (the utf-8-sig encoding adds a byte
order mark at encoding level, below this model of the text). -/
def export_to_csv (rs : List TopicRecord) : Option Str :=
  match rs with
  | [] => none
  | _ :: _ =>
      some (strCodes "rank,article,views,aljazeera_coverage" ++ ([13, 10] ++ catRows rs))

/-! ### A JSON reader for the written file

Modelled from the spec: "JSON output, when parsed back, reproduces the same
set of (article, views, coverage) tuples" — the parsing back is done by a
standard JSON reader (json.load), which is not part of trend.py. The reader
below implements JSON for the sublanguage save_to_json emits (arrays of flat
objects with string and integer values, arbitrary whitespace, full string
escape syntax, strict rejection of raw control characters), and extracts the
TopicRecord fields from each parsed object by key. -/

/-- JSON insignificant whitespace. -/
def isWsCode (c : Nat) : Bool :=
  c = 32 || c = 9 || c = 10 || c = 13

/-- Drop insignificant whitespace. -/
def skipWs (s : Str) : Str := s.dropWhile isWsCode

/-- Value of one hex digit character. -/
def hexVal (c : Nat) : Option Nat :=
  if 48 ≤ c ∧ c ≤ 57 then some (c - 48)
  else if 97 ≤ c ∧ c ≤ 102 then some (c - 87)
  else if 65 ≤ c ∧ c ≤ 70 then some (c - 55)
  else none

/-- The character named by a one-letter JSON escape. -/
def escCharCode (e : Nat) : Option Nat :=
  if e = 34 then some 34
  else if e = 92 then some 92
  else if e = 47 then some 47
  else if e = 98 then some 8
  else if e = 102 then some 12
  else if e = 110 then some 10
  else if e = 114 then some 13
  else if e = 116 then some 9
  else none

/-- Parse the body of a JSON string literal after its opening quote, up to
and including the closing quote; raw control characters are rejected as in
strict json.load. -/
def parseStrBody : Str → Option (Str × Str)
  | [] => none
  | c :: rest =>
      if c = 34 then some ([], rest)
      else if c = 92 then
        match rest with
        | [] => none
        | e :: rest2 =>
            if e = 117 then
              match rest2 with
              | h1 :: h2 :: h3 :: h4 :: rest3 =>
                  match hexVal h1, hexVal h2, hexVal h3, hexVal h4 with
                  | some a, some b, some c2, some d =>
                      match parseStrBody rest3 with
                      | some (t, r) =>
                          some ((((a * 16 + b) * 16 + c2) * 16 + d) :: t, r)
                      | none => none
                  | _, _, _, _ => none
              | _ => none
            else
              match escCharCode e with
              | some ch =>
                  match parseStrBody rest2 with
                  | some (t, r) => some (ch :: t, r)
                  | none => none
              | none => none
      else if c < 32 then none
      else
        match parseStrBody rest with
        | some (t, r) => some (c :: t, r)
        | none => none

/-- Is this character a decimal digit? -/
def isDigitCode (c : Nat) : Bool := 48 ≤ c && c ≤ 57

/-- Consume leading decimal digits into an accumulator. -/
def parseDigitsAux (acc : Nat) : Str → Nat × Str
  | [] => (acc, [])
  | c :: rest =>
      if isDigitCode c then parseDigitsAux (acc * 10 + (c - 48)) rest
      else (acc, c :: rest)

/-- Parse a JSON integer: optional minus sign, at least one digit. -/
def parseIntTok (s : Str) : Option (Int × Str) :=
  match s with
  | [] => none
  | c :: rest =>
      if c = 45 then
        match rest with
        | [] => none
        | c2 :: _ =>
            if isDigitCode c2 then
              some (-((parseDigitsAux 0 rest).1 : Int), (parseDigitsAux 0 rest).2)
            else none
      else if isDigitCode c then
        some (((parseDigitsAux 0 (c :: rest)).1 : Int), (parseDigitsAux 0 (c :: rest)).2)
      else none

/-- A parsed member value: an integer or a string. -/
inductive PVal : Type where
  | pint : Int → PVal
  | pstr : Str → PVal
deriving DecidableEq

/-- Parse one JSON value of the emitted sublanguage. -/
def parseVal (s : Str) : Option (PVal × Str) :=
  match s with
  | [] => none
  | c :: rest =>
      if c = 34 then
        match parseStrBody rest with
        | some (t, r) => some (.pstr t, r)
        | none => none
      else
        match parseIntTok (c :: rest) with
        | some (i, r) => some (.pint i, r)
        | none => none

/-- Parse one object member: "key" : value. -/
def parseMember (s : Str) : Option ((Str × PVal) × Str) :=
  match s with
  | [] => none
  | c :: rest =>
      if c = 34 then
        match parseStrBody rest with
        | some (k, r1) =>
            match skipWs r1 with
            | 58 :: r2 =>
                match parseVal (skipWs r2) with
                | some (v, r3) => some ((k, v), r3)
                | none => none
            | _ => none
        | none => none
      else none

/-- Parse the members of an object after its first member begins, up to and
including the closing brace. -/
def parseMembers : Nat → Str → Option (List (Str × PVal) × Str)
  | 0, _ => none
  | fuel + 1, s =>
      match parseMember s with
      | none => none
      | some (kv, r1) =>
          match skipWs r1 with
          | 44 :: r2 =>
              match parseMembers fuel (skipWs r2) with
              | some (ms, r3) => some (kv :: ms, r3)
              | none => none
          | 125 :: r2 => some ([kv], r2)
          | _ => none

/-- Parse an object: brace, members (possibly none), closing brace. -/
def parseObjTop (fuel : Nat) (s : Str) : Option (List (Str × PVal) × Str) :=
  match s with
  | 123 :: r =>
      match skipWs r with
      | 125 :: r2 => some ([], r2)
      | r1 => parseMembers fuel r1
  | _ => none

/-- First binding of a key among parsed members (the emitted objects have
no duplicate keys, so first and last binding agree). -/
def memLookup : List (Str × PVal) → Str → Option PVal
  | [], _ => none
  | (k, v) :: rest, key => if k = key then some v else memLookup rest key

/-- Rebuild a TopicRecord from a parsed object, requiring the four fields
with their expected types. -/
def recOfMembers (ms : List (Str × PVal)) : Option TopicRecord :=
  match memLookup ms (strCodes "rank"), memLookup ms (strCodes "article"),
        memLookup ms (strCodes "views"),
        memLookup ms (strCodes "aljazeera_coverage") with
  | some (.pint r), some (.pstr a), some (.pint v), some (.pstr c) =>
      some { rank := r, article := a, views := v, coverage := c }
  | _, _, _, _ => none

/-- Parse the elements of the top-level array after its first element
begins, up to and including the closing bracket. -/
def parseRecsAux : Nat → Str → Option (List TopicRecord × Str)
  | 0, _ => none
  | fuel + 1, s =>
      match parseObjTop fuel s with
      | none => none
      | some (ms, r1) =>
          match recOfMembers ms with
          | none => none
          | some rc =>
              match skipWs r1 with
              | 44 :: r2 =>
                  match parseRecsAux fuel (skipWs r2) with
                  | some (tl, r3) => some (rc :: tl, r3)
                  | none => none
              | 93 :: r2 => some ([rc], r2)
              | _ => none

/-- Parse a whole file: a JSON array of topic objects and nothing else. -/
def parseTopJson (s : Str) : Option (List TopicRecord) :=
  match skipWs s with
  | 91 :: r =>
      match skipWs r with
      | 93 :: r2 => if skipWs r2 = [] then some [] else none
      | r1 =>
          match parseRecsAux (s.length + 1) r1 with
          | some (rs, r2) => if skipWs r2 = [] then some rs else none
          | none => none
  | _ => none

/-! ### Round trip of the written JSON -/

theorem hexVal_hexDigitCode (d : Nat) (hd : d < 16) :
    hexVal (hexDigitCode d) = some d := by
  interval_cases d <;> rfl

theorem parseStrBody_quote (rest : Str) :
    parseStrBody (34 :: rest) = some ([], rest) := by
  rw [parseStrBody.eq_def]
  rfl

theorem parseStrBody_lit (c : Nat) (rest t r : Str) (h34 : c ≠ 34)
    (h92 : c ≠ 92) (hge : ¬ c < 32) (h : parseStrBody rest = some (t, r)) :
    parseStrBody (c :: rest) = some (c :: t, r) := by
  rw [parseStrBody.eq_def]
  simp [h34, h92, hge, h]

theorem parseStrBody_shortEsc (e ch : Nat) (rest t r : Str) (he : e ≠ 117)
    (hch : escCharCode e = some ch) (h : parseStrBody rest = some (t, r)) :
    parseStrBody (92 :: e :: rest) = some (ch :: t, r) := by
  rw [parseStrBody.eq_def]
  simp [he, hch, h]

theorem parseStrBody_uEsc (c : Nat) (rest t r : Str) (hc : c < 32)
    (h : parseStrBody rest = some (t, r)) :
    parseStrBody (92 :: 117 :: 48 :: 48 :: hexDigitCode (c / 16) ::
      hexDigitCode (c % 16) :: rest) = some (c :: t, r) := by
  rw [parseStrBody.eq_def]
  have hv1 := hexVal_hexDigitCode (c / 16) (by omega)
  have hv2 := hexVal_hexDigitCode (c % 16) (by omega)
  simp only [show hexVal 48 = some 0 from rfl, hv1, hv2, h]
  simp
  omega

theorem parseStrBody_escStr (s rest : Str) :
    parseStrBody (escStr s ++ (34 :: rest)) = some (s, rest) := by
  induction s with
  | nil => exact parseStrBody_quote rest
  | cons c t ih =>
      rw [show escStr (c :: t) = escapeCode c ++ escStr t from rfl,
        List.append_assoc]
      by_cases h1 : c = 34
      · subst h1
        rw [show escapeCode 34 = [92, 34] from rfl]
        exact parseStrBody_shortEsc 34 34 _ t rest (by omega) rfl ih
      by_cases h2 : c = 92
      · subst h2
        rw [show escapeCode 92 = [92, 92] from rfl]
        exact parseStrBody_shortEsc 92 92 _ t rest (by omega) rfl ih
      by_cases h3 : c = 8
      · subst h3
        rw [show escapeCode 8 = [92, 98] from rfl]
        exact parseStrBody_shortEsc 98 8 _ t rest (by omega) rfl ih
      by_cases h4 : c = 9
      · subst h4
        rw [show escapeCode 9 = [92, 116] from rfl]
        exact parseStrBody_shortEsc 116 9 _ t rest (by omega) rfl ih
      by_cases h5 : c = 10
      · subst h5
        rw [show escapeCode 10 = [92, 110] from rfl]
        exact parseStrBody_shortEsc 110 10 _ t rest (by omega) rfl ih
      by_cases h6 : c = 12
      · subst h6
        rw [show escapeCode 12 = [92, 102] from rfl]
        exact parseStrBody_shortEsc 102 12 _ t rest (by omega) rfl ih
      by_cases h7 : c = 13
      · subst h7
        rw [show escapeCode 13 = [92, 114] from rfl]
        exact parseStrBody_shortEsc 114 13 _ t rest (by omega) rfl ih
      by_cases h8 : c < 32
      · have hesc : escapeCode c =
            [92, 117, 48, 48, hexDigitCode (c / 16), hexDigitCode (c % 16)] := by
          simp [escapeCode, h1, h2, h3, h4, h5, h6, h7, h8]
        rw [hesc]
        exact parseStrBody_uEsc c _ t rest h8 ih
      · have hesc : escapeCode c = [c] := by
          simp [escapeCode, h1, h2, h3, h4, h5, h6, h7, h8]
        rw [hesc]
        exact parseStrBody_lit c _ t rest h1 h2 h8 ih

/-- Plain ASCII strings (the object keys) parse back to themselves. -/
theorem parseStrBody_plain (k rest : Str)
    (hk : ∀ c ∈ k, 32 ≤ c ∧ c ≠ 34 ∧ c ≠ 92) :
    parseStrBody (k ++ (34 :: rest)) = some (k, rest) := by
  induction k with
  | nil => exact parseStrBody_quote rest
  | cons c t ih =>
      have hc := hk c (by simp)
      have ht : ∀ c ∈ t, 32 ≤ c ∧ c ≠ 34 ∧ c ≠ 92 := by
        intro x hx
        exact hk x (by simp [hx])
      exact parseStrBody_lit c _ t rest hc.2.1 hc.2.2 (by omega) (ih ht)

/-- Is the head of the remaining input a digit? (Guard for where a rendered
number may stop.) -/
def headDigit : Str → Bool
  | [] => false
  | c :: _ => isDigitCode c

theorem parseDigitsAux_stop (acc : Nat) (rest : Str)
    (h : headDigit rest = false) : parseDigitsAux acc rest = (acc, rest) := by
  cases rest with
  | nil => rfl
  | cons c t =>
      have hc : isDigitCode c = false := h
      simp [parseDigitsAux, hc]

theorem parseDigitsAux_natDigitsAux (f : Nat) : ∀ (n acc : Nat) (rest : Str),
    n < f →
    parseDigitsAux acc (natDigitsAux f n ++ rest) =
      parseDigitsAux (acc * 10 ^ (natDigitsAux f n).length + n) rest := by
  induction f with
  | zero => intro n acc rest h; omega
  | succ f ih =>
      intro n acc rest h
      by_cases h10 : n < 10
      · rw [show natDigitsAux (f + 1) n = if n < 10 then [48 + n]
              else natDigitsAux f (n / 10) ++ [48 + n % 10] from rfl, if_pos h10]
        have hd : isDigitCode (48 + n) = true := by
          simp [isDigitCode]
          omega
        simp only [List.cons_append, List.nil_append, parseDigitsAux, hd,
          if_pos rfl, List.length_cons, List.length_nil]
        have he : acc * 10 + (48 + n - 48) = acc * 10 ^ (0 + 1) + n := by
          simp [pow_succ]
        rw [he]
        simp
      · rw [show natDigitsAux (f + 1) n = if n < 10 then [48 + n]
              else natDigitsAux f (n / 10) ++ [48 + n % 10] from rfl, if_neg h10]
        rw [List.append_assoc]
        have hn : n / 10 < f := by omega
        rw [ih (n / 10) acc ([48 + n % 10] ++ rest) hn]
        have hd : isDigitCode (48 + n % 10) = true := by
          simp [isDigitCode]
          omega
        simp only [List.cons_append, List.nil_append, parseDigitsAux, hd, if_pos rfl]
        have he : (acc * 10 ^ (natDigitsAux f (n / 10)).length + n / 10) * 10 +
              (48 + n % 10 - 48) =
            acc * 10 ^ (natDigitsAux f (n / 10) ++ [48 + n % 10]).length + n := by
          rw [List.length_append, List.length_cons, List.length_nil, pow_succ,
            ← Nat.mul_assoc]
          omega
        rw [he]
        simp

theorem natDigitsAux_cons (f : Nat) : ∀ n, n < f →
    ∃ c t, natDigitsAux f n = c :: t ∧ 48 ≤ c ∧ c ≤ 57 := by
  induction f with
  | zero => intro n h; omega
  | succ f ih =>
      intro n h
      by_cases h10 : n < 10
      · refine ⟨48 + n, [], ?_, by omega, by omega⟩
        rw [show natDigitsAux (f + 1) n = if n < 10 then [48 + n]
              else natDigitsAux f (n / 10) ++ [48 + n % 10] from rfl, if_pos h10]
      · obtain ⟨c, t, hct, hc1, hc2⟩ := ih (n / 10) (by omega)
        refine ⟨c, t ++ [48 + n % 10], ?_, hc1, hc2⟩
        rw [show natDigitsAux (f + 1) n = if n < 10 then [48 + n]
              else natDigitsAux f (n / 10) ++ [48 + n % 10] from rfl, if_neg h10,
          hct, List.cons_append]

theorem parseDigitsAux_natDigits (n : Nat) (rest : Str)
    (h : headDigit rest = false) :
    parseDigitsAux 0 (natDigits n ++ rest) = (n, rest) := by
  rw [show natDigits n = natDigitsAux (n + 1) n from rfl,
    parseDigitsAux_natDigitsAux (n + 1) n 0 rest (by omega),
    Nat.zero_mul, Nat.zero_add, parseDigitsAux_stop n rest h]

theorem parseIntTok_renderInt (i : Int) (rest : Str)
    (h : headDigit rest = false) :
    parseIntTok (renderInt i ++ rest) = some (i, rest) := by
  by_cases hi : i < 0
  · have hrend : renderInt i = 45 :: natDigits i.natAbs := by
      simp [renderInt, hi]
    obtain ⟨c, t, hct, hc1, hc2⟩ :=
      natDigitsAux_cons (i.natAbs + 1) i.natAbs (by omega)
    have hnd : natDigits i.natAbs = c :: t := hct
    have hd : isDigitCode c = true := by
      simp [isDigitCode]
      omega
    rw [hrend, hnd, List.cons_append, List.cons_append, parseIntTok.eq_def]
    simp only [hd]
    simp
    rw [← List.cons_append, ← hnd, parseDigitsAux_natDigits i.natAbs rest h]
    refine ⟨?_, rfl⟩
    show -((i.natAbs : Int)) = i
    omega
  · have hrend : renderInt i = natDigits i.toNat := by
      simp [renderInt, hi]
    obtain ⟨c, t, hct, hc1, hc2⟩ :=
      natDigitsAux_cons (i.toNat + 1) i.toNat (by omega)
    have hnd : natDigits i.toNat = c :: t := hct
    have hd : isDigitCode c = true := by
      simp [isDigitCode]
      omega
    have h45 : ¬ (c = 45) := by omega
    rw [hrend, hnd, List.cons_append, parseIntTok.eq_def]
    simp only [h45, hd, if_false, if_true]
    simp [h45]
    rw [← List.cons_append, ← hnd, parseDigitsAux_natDigits i.toNat rest h]
    have hval : ((i.toNat : Int)) = i := by omega
    simp [hval]

theorem renderInt_cons (i : Int) :
    ∃ c t, renderInt i = c :: t ∧ 45 ≤ c ∧ c ≤ 57 ∧ c ≠ 46 ∧ c ≠ 47 := by
  by_cases hi : i < 0
  · exact ⟨45, natDigits i.natAbs, by simp [renderInt, hi], by omega, by omega,
      by omega, by omega⟩
  · obtain ⟨c, t, hct, h1, h2⟩ := natDigitsAux_cons (i.toNat + 1) i.toNat (by omega)
    refine ⟨c, t, ?_, by omega, by omega, by omega, by omega⟩
    rw [show renderInt i = natDigits i.toNat from by simp [renderInt, hi]]
    exact hct

theorem parseVal_int (i : Int) (rest : Str) (h : headDigit rest = false) :
    parseVal (renderInt i ++ rest) = some (.pint i, rest) := by
  obtain ⟨c, t, hct, h45, h57, h46, h47⟩ := renderInt_cons i
  have h34 : ¬ (c = 34) := by omega
  rw [hct, List.cons_append, parseVal.eq_def]
  simp only [h34, if_false]
  rw [← List.cons_append, ← hct, parseIntTok_renderInt i rest h]

theorem parseVal_str (s rest : Str) :
    parseVal (renderStrLit s ++ rest) = some (.pstr s, rest) := by
  rw [show renderStrLit s = 34 :: (escStr s ++ [34]) from rfl, List.cons_append,
    parseVal.eq_def]
  simp only [List.append_assoc, List.singleton_append, if_pos]
  rw [parseStrBody_escStr]

/-- The rendering of a member value: what json.dump writes for ints and
strings. -/
def pvalRender : PVal → Str
  | .pint i => renderInt i
  | .pstr s => renderStrLit s

theorem pvalRender_cons (v : PVal) :
    ∃ c t, pvalRender v = c :: t ∧ isWsCode c = false ∧ c ≠ 125 ∧ c ≠ 93 := by
  cases v with
  | pint i =>
      obtain ⟨c, t, hct, h45, h57, _, _⟩ := renderInt_cons i
      refine ⟨c, t, hct, ?_, by omega, by omega⟩
      simp [isWsCode]
      omega
  | pstr s =>
      refine ⟨34, escStr s ++ [34], rfl, ?_, by omega, by omega⟩
      simp [isWsCode]

theorem parseVal_pvalRender (v : PVal) (rest : Str) (h : headDigit rest = false) :
    parseVal (pvalRender v ++ rest) = some (v, rest) := by
  cases v with
  | pint i => exact parseVal_int i rest h
  | pstr s => exact parseVal_str s rest

theorem parseMember_render (k : Str) (hk : ∀ c ∈ k, 32 ≤ c ∧ c ≠ 34 ∧ c ≠ 92)
    (v : PVal) (rest : Str) (h : headDigit rest = false) :
    parseMember (keyLit k ++ (pvalRender v ++ rest)) = some ((k, v), rest) := by
  obtain ⟨c, t, hct, hcw, _, _⟩ := pvalRender_cons v
  have hdrop : List.dropWhile isWsCode (pvalRender v ++ rest) =
      pvalRender v ++ rest := by
    rw [hct, List.cons_append, List.dropWhile_cons, hcw]
    simp
  rw [show keyLit k = 34 :: (k ++ [34, 58, 32]) from rfl, List.cons_append,
    parseMember.eq_def]
  simp only [List.append_assoc, List.cons_append, List.nil_append, if_pos]
  rw [parseStrBody_plain k _ hk]
  simp only [skipWs, List.dropWhile_cons, show isWsCode 58 = false from rfl,
    show isWsCode 32 = true from rfl]
  simp only [Bool.false_eq_true, if_false]
  have h32 : isWsCode 32 = true := rfl
  have hs2 : List.dropWhile isWsCode (32 :: (pvalRender v ++ rest)) =
      pvalRender v ++ rest := by
    simp [List.dropWhile_cons, h32, hdrop]
  simp only [hs2, parseVal_pvalRender v rest h]

/-- The parsed members of one rendered topic object. -/
def msOf (r : TopicRecord) : List (Str × PVal) :=
  [(strCodes "rank", .pint r.rank), (strCodes "article", .pstr r.article),
   (strCodes "views", .pint r.views),
   (strCodes "aljazeera_coverage", .pstr r.coverage)]

theorem parseMembers_consStep (f : Nat) (k : Str)
    (hk : ∀ c ∈ k, 32 ≤ c ∧ c ≠ 34 ∧ c ≠ 92) (v : PVal) (Z : Str)
    (ms : List (Str × PVal)) (rem : Str)
    (hrec : parseMembers f Z = some (ms, rem)) (hZ : ∃ zt, Z = 34 :: zt) :
    parseMembers (f + 1)
      (keyLit k ++ (pvalRender v ++
        (44 :: 10 :: 32 :: 32 :: 32 :: 32 :: 32 :: 32 :: 32 :: 32 :: Z))) =
      some ((k, v) :: ms, rem) := by
  obtain ⟨zt, hz⟩ := hZ
  have hX : headDigit
      (44 :: 10 :: 32 :: 32 :: 32 :: 32 :: 32 :: 32 :: 32 :: 32 :: Z) = false := rfl
  rw [show parseMembers (f + 1)
        (keyLit k ++ (pvalRender v ++
          (44 :: 10 :: 32 :: 32 :: 32 :: 32 :: 32 :: 32 :: 32 :: 32 :: Z))) =
      (match parseMember (keyLit k ++ (pvalRender v ++
          (44 :: 10 :: 32 :: 32 :: 32 :: 32 :: 32 :: 32 :: 32 :: 32 :: Z))) with
       | none => none
       | some (kv, r1) =>
           match skipWs r1 with
           | 44 :: r2 =>
               match parseMembers f (skipWs r2) with
               | some (ms2, r3) => some (kv :: ms2, r3)
               | none => none
           | 125 :: r2 => some ([kv], r2)
           | _ => none) from rfl]
  rw [parseMember_render k hk v _ hX, hz]
  simp only [skipWs, List.dropWhile_cons, show isWsCode 44 = false from rfl,
    Bool.false_eq_true, if_false]
  simp only [show isWsCode 10 = true from rfl, show isWsCode 32 = true from rfl,
    show isWsCode 34 = false from rfl, Bool.false_eq_true, if_false, if_true]
  rw [← hz, hrec]

theorem parseMembers_lastStep (f : Nat) (k : Str)
    (hk : ∀ c ∈ k, 32 ≤ c ∧ c ≠ 34 ∧ c ≠ 92) (v : PVal) (rest : Str) :
    parseMembers (f + 1)
      (keyLit k ++ (pvalRender v ++ (10 :: 32 :: 32 :: 32 :: 32 :: 125 :: rest))) =
      some ([(k, v)], rest) := by
  have hX : headDigit (10 :: 32 :: 32 :: 32 :: 32 :: 125 :: rest) = false := rfl
  rw [show parseMembers (f + 1)
        (keyLit k ++ (pvalRender v ++ (10 :: 32 :: 32 :: 32 :: 32 :: 125 :: rest))) =
      (match parseMember (keyLit k ++ (pvalRender v ++
          (10 :: 32 :: 32 :: 32 :: 32 :: 125 :: rest))) with
       | none => none
       | some (kv, r1) =>
           match skipWs r1 with
           | 44 :: r2 =>
               match parseMembers f (skipWs r2) with
               | some (ms2, r3) => some (kv :: ms2, r3)
               | none => none
           | 125 :: r2 => some ([kv], r2)
           | _ => none) from rfl]
  rw [parseMember_render k hk v _ hX]
  simp only [skipWs, List.dropWhile_cons, show isWsCode 10 = true from rfl,
    show isWsCode 32 = true from rfl, show isWsCode 125 = false from rfl,
    Bool.false_eq_true, if_false, if_true]

theorem parseMembers_fourMembers (f : Nat) (r : TopicRecord) (rest : Str) :
    parseMembers (f + 4)
      (keyLit (strCodes "rank") ++ (pvalRender (.pint r.rank) ++
        (44 :: 10 :: 32 :: 32 :: 32 :: 32 :: 32 :: 32 :: 32 :: 32 ::
        (keyLit (strCodes "article") ++ (pvalRender (.pstr r.article) ++
        (44 :: 10 :: 32 :: 32 :: 32 :: 32 :: 32 :: 32 :: 32 :: 32 ::
        (keyLit (strCodes "views") ++ (pvalRender (.pint r.views) ++
        (44 :: 10 :: 32 :: 32 :: 32 :: 32 :: 32 :: 32 :: 32 :: 32 ::
        (keyLit (strCodes "aljazeera_coverage") ++
          (pvalRender (.pstr r.coverage) ++
        (10 :: 32 :: 32 :: 32 :: 32 :: 125 :: rest)))))))))))) =
      some (msOf r, rest) := by
  have hkR : ∀ c ∈ strCodes "rank", 32 ≤ c ∧ c ≠ 34 ∧ c ≠ 92 := by decide
  have hkA : ∀ c ∈ strCodes "article", 32 ≤ c ∧ c ≠ 34 ∧ c ≠ 92 := by decide
  have hkV : ∀ c ∈ strCodes "views", 32 ≤ c ∧ c ≠ 34 ∧ c ≠ 92 := by decide
  have hkC : ∀ c ∈ strCodes "aljazeera_coverage", 32 ≤ c ∧ c ≠ 34 ∧ c ≠ 92 := by
    decide
  exact parseMembers_consStep (f + 3) _ hkR (.pint r.rank) _ _ _
    (parseMembers_consStep (f + 2) _ hkA (.pstr r.article) _ _ _
      (parseMembers_consStep (f + 1) _ hkV (.pint r.views) _ _ _
        (parseMembers_lastStep f _ hkC (.pstr r.coverage) rest) ⟨_, rfl⟩)
      ⟨_, rfl⟩)
    ⟨_, rfl⟩

theorem recOfMembers_msOf (r : TopicRecord) : recOfMembers (msOf r) = some r := rfl

theorem parseObjTop_step (f : Nat) (Z : Str) (ms : List (Str × PVal))
    (rem : Str) (hZ : ∃ zt, Z = 34 :: zt)
    (hm : parseMembers f Z = some (ms, rem)) :
    parseObjTop f
      (123 :: 10 :: 32 :: 32 :: 32 :: 32 :: 32 :: 32 :: 32 :: 32 :: Z) =
      some (ms, rem) := by
  obtain ⟨zt, hz⟩ := hZ
  rw [hz] at hm ⊢
  rw [parseObjTop.eq_def]
  simp only [skipWs, List.dropWhile_cons, show isWsCode 10 = true from rfl,
    show isWsCode 32 = true from rfl, show isWsCode 34 = false from rfl,
    Bool.false_eq_true, if_false, if_true]
  rw [hm]

theorem parseObjTop_renderObj (f : Nat) (r : TopicRecord) (rest : Str) :
    parseObjTop (f + 4) (renderObj r ++ rest) = some (msOf r, rest) := by
  have hm := parseMembers_fourMembers f r rest
  simp only [renderObj, List.cons_append, List.nil_append, List.append_assoc]
  exact parseObjTop_step (f + 4) _ (msOf r) rest ⟨_, rfl⟩ hm

theorem sepRecs_cons (rs : List TopicRecord) (h : rs ≠ []) :
    ∃ t, sepRecs rs = 123 :: t := by
  cases rs with
  | nil => exact absurd rfl h
  | cons r rest =>
      cases rest with
      | nil => exact ⟨_, rfl⟩
      | cons r2 rest2 => exact ⟨_, rfl⟩

theorem renderObj_length_pos (r : TopicRecord) : 1 ≤ (renderObj r).length := by
  simp [renderObj]

theorem sepRecs_length (rs : List TopicRecord) :
    rs.length ≤ (sepRecs rs).length := by
  induction rs with
  | nil => simp [sepRecs]
  | cons r rs2 ih =>
      cases rs2 with
      | nil => simpa [sepRecs] using renderObj_length_pos r
      | cons r2 rs3 =>
          have h1 := renderObj_length_pos r
          rw [show sepRecs (r :: r2 :: rs3) =
              renderObj r ++ ([44, 10, 32, 32, 32, 32] ++ sepRecs (r2 :: rs3))
              from rfl]
          simp only [List.length_append, List.length_cons, List.length_nil]
          simp only [List.length_cons] at ih ⊢
          omega

theorem parseRecsAux_lastStep (f : Nat) (r : TopicRecord) (rest : Str) :
    parseRecsAux (f + 4 + 1) (renderObj r ++ (10 :: 93 :: rest)) =
      some ([r], rest) := by
  rw [show parseRecsAux (f + 4 + 1) (renderObj r ++ (10 :: 93 :: rest)) =
      (match parseObjTop (f + 4) (renderObj r ++ (10 :: 93 :: rest)) with
       | none => none
       | some (ms, r1) =>
           match recOfMembers ms with
           | none => none
           | some rc =>
               match skipWs r1 with
               | 44 :: r2 =>
                   match parseRecsAux (f + 4) (skipWs r2) with
                   | some (tl, r3) => some (rc :: tl, r3)
                   | none => none
               | 93 :: r2 => some ([rc], r2)
               | _ => none) from rfl]
  rw [parseObjTop_renderObj f r (10 :: 93 :: rest)]
  simp only [recOfMembers_msOf]
  simp only [skipWs, List.dropWhile_cons, show isWsCode 10 = true from rfl,
    show isWsCode 93 = false from rfl, Bool.false_eq_true, if_false, if_true]

theorem parseRecsAux_consStep (f : Nat) (r : TopicRecord) (Z : Str)
    (tl : List TopicRecord) (rem : Str)
    (hrec : parseRecsAux (f + 4) Z = some (tl, rem))
    (hZ : ∃ zt, Z = 123 :: zt) :
    parseRecsAux (f + 4 + 1)
      (renderObj r ++ (44 :: 10 :: 32 :: 32 :: 32 :: 32 :: Z)) =
      some (r :: tl, rem) := by
  obtain ⟨zt, hz⟩ := hZ
  rw [show parseRecsAux (f + 4 + 1)
        (renderObj r ++ (44 :: 10 :: 32 :: 32 :: 32 :: 32 :: Z)) =
      (match parseObjTop (f + 4)
          (renderObj r ++ (44 :: 10 :: 32 :: 32 :: 32 :: 32 :: Z)) with
       | none => none
       | some (ms, r1) =>
           match recOfMembers ms with
           | none => none
           | some rc =>
               match skipWs r1 with
               | 44 :: r2 =>
                   match parseRecsAux (f + 4) (skipWs r2) with
                   | some (tl2, r3) => some (rc :: tl2, r3)
                   | none => none
               | 93 :: r2 => some ([rc], r2)
               | _ => none) from rfl]
  rw [parseObjTop_renderObj f r (44 :: 10 :: 32 :: 32 :: 32 :: 32 :: Z)]
  simp only [recOfMembers_msOf]
  rw [hz]
  simp only [skipWs, List.dropWhile_cons, show isWsCode 44 = false from rfl,
    Bool.false_eq_true, if_false]
  simp only [show isWsCode 10 = true from rfl, show isWsCode 32 = true from rfl,
    show isWsCode 123 = false from rfl, Bool.false_eq_true, if_false, if_true]
  rw [← hz, hrec]

theorem parseRecsAux_sepRecs (rs : List TopicRecord) : ∀ (f : Nat) (rest : Str),
    rs ≠ [] →
    parseRecsAux (rs.length + 4 + f) (sepRecs rs ++ (10 :: 93 :: rest)) =
      some (rs, rest) := by
  induction rs with
  | nil => intro f rest h; exact absurd rfl h
  | cons r rs2 ih =>
      intro f rest _
      cases rs2 with
      | nil =>
          rw [show sepRecs [r] = renderObj r from rfl,
            show ([r] : List TopicRecord).length + 4 + f = (f + 4) + 1 from by
              simp only [List.length_cons, List.length_nil]
              omega]
          exact parseRecsAux_lastStep f r rest
      | cons r2 rs3 =>
          rw [show sepRecs (r :: r2 :: rs3) =
              renderObj r ++ ([44, 10, 32, 32, 32, 32] ++ sepRecs (r2 :: rs3))
              from rfl]
          simp only [List.cons_append, List.nil_append, List.append_assoc]
          rw [show (r :: r2 :: rs3).length + 4 + f =
              (((r2 :: rs3).length + f) + 4) + 1 from by
                simp only [List.length_cons]
                omega]
          refine parseRecsAux_consStep ((r2 :: rs3).length + f) r _ _ _ ?_ ?_
          · rw [show (r2 :: rs3).length + f + 4 = (r2 :: rs3).length + 4 + f
                from by omega]
            exact ih f rest (List.cons_ne_nil r2 rs3)
          · obtain ⟨t2, ht2⟩ := sepRecs_cons (r2 :: rs3) (List.cons_ne_nil r2 rs3)
            exact ⟨t2 ++ (10 :: 93 :: rest), by rw [ht2]; rfl⟩

theorem parseTopJson_renderTopJson (rs : List TopicRecord) :
    parseTopJson (renderTopJson rs) = some rs := by
  cases rs with
  | nil => rfl
  | cons r rs2 =>
      obtain ⟨t, ht⟩ := sepRecs_cons (r :: rs2) (List.cons_ne_nil r rs2)
      have hsl := sepRecs_length (r :: rs2)
      rw [parseTopJson.eq_def,
        show renderTopJson (r :: rs2) =
          91 :: 10 :: 32 :: 32 :: 32 :: 32 ::
            (sepRecs (r :: rs2) ++ (10 :: 93 :: ([] : Str))) from rfl, ht]
      simp only [List.cons_append]
      simp only [skipWs, List.dropWhile_cons,
        show isWsCode 91 = false from rfl, show isWsCode 10 = true from rfl,
        show isWsCode 32 = true from rfl, show isWsCode 123 = false from rfl,
        Bool.false_eq_true, if_false, if_true]
      rw [← List.cons_append, ← ht]
      simp only [List.length_cons, List.length_append]
      obtain ⟨g, hg⟩ := Nat.le.dest
        (show (r :: rs2).length + 4 ≤
            List.length (sepRecs (r :: rs2)) +
              ([].length + 1 + 1) + 1 + 1 + 1 + 1 + 1 + 1 + 1 from by
          simp only [List.length_cons, List.length_nil] at hsl ⊢
          omega)
      rw [← hg, parseRecsAux_sepRecs (r :: rs2) g [] (List.cons_ne_nil r rs2)]
      simp

theorem escStr_verbatim (s : Str) (h : ∀ c ∈ s, 32 ≤ c ∧ c ≠ 34 ∧ c ≠ 92) :
    escStr s = s := by
  induction s with
  | nil => rfl
  | cons c t ih =>
      have hc := h c (by simp)
      have hesc : escapeCode c = [c] := by
        simp [escapeCode, hc.2.1, hc.2.2, show ¬ (c = 8) from by omega,
          show ¬ (c = 9) from by omega, show ¬ (c = 10) from by omega,
          show ¬ (c = 12) from by omega, show ¬ (c = 13) from by omega,
          show ¬ (c < 32) from by omega]
      rw [show escStr (c :: t) = escapeCode c ++ escStr t from rfl, hesc,
        ih fun x hx => h x (by simp [hx])]
      rfl

/-- C6: the JSON file written by save_to_json (json.dump with
ensure_ascii=False, indent=4), parsed back by a JSON reader, yields exactly
the in-memory record list — in particular the same set of (article, views,
coverage) tuples — and every character other than the quote, the backslash
and control characters, all non-ASCII text included, is written verbatim. -/
theorem c6_json_round_trip :
    (∀ rs : List TopicRecord, ∃ content, save_to_json rs = some content ∧
        parseTopJson content = some rs) ∧
    (∀ rs ps : List TopicRecord,
        parseTopJson (renderTopJson rs) = some ps →
        ps.map (fun r => (r.article, r.views, r.coverage)) =
          rs.map fun r => (r.article, r.views, r.coverage)) ∧
    (∀ s : Str, (∀ c ∈ s, 32 ≤ c ∧ c ≠ 34 ∧ c ≠ 92) → escStr s = s) := by
  refine ⟨?_, ?_, escStr_verbatim⟩
  · intro rs
    exact ⟨renderTopJson rs, rfl, parseTopJson_renderTopJson rs⟩
  · intro rs ps h
    rw [parseTopJson_renderTopJson] at h
    injection h with h
    rw [h]

/-- Witness for C6 at a concrete record list. -/
theorem c6_json_round_trip_witness :
    (∃ content, save_to_json [⟨1, [97], 5, [98]⟩] = some content ∧
        parseTopJson content = some [⟨1, [97], 5, [98]⟩]) ∧
    ([(⟨1, [97], 5, [98]⟩ : TopicRecord)].map
        fun r => (r.article, r.views, r.coverage)) =
      ([(⟨1, [97], 5, [98]⟩ : TopicRecord)].map
        fun r => (r.article, r.views, r.coverage)) ∧
    escStr [97] = [97] :=
  ⟨c6_json_round_trip.1 [⟨1, [97], 5, [98]⟩],
   c6_json_round_trip.2.1 [⟨1, [97], 5, [98]⟩] [⟨1, [97], 5, [98]⟩] (by decide),
   c6_json_round_trip.2.2 [97] (by decide)⟩

/-- C9 counterexample: save_to_json on the empty record list still writes a
file — the two-character JSON array [] (codes 91, 93) — so the JSON writer
does not leave the filesystem unchanged on an empty list. -/
theorem c9_counterexample :
    save_to_json ([] : List TopicRecord) = some [91, 93] := rfl

/-- C9 amended: on an empty record list the CSV writer returns before
creating a file (logs only), but the JSON writer opens and writes its file
unconditionally, producing the empty JSON array. -/
theorem c9_empty_list_emitters :
    export_to_csv ([] : List TopicRecord) = none ∧
    save_to_json ([] : List TopicRecord) = some [91, 93] :=
  ⟨rfl, rfl⟩
